import Mathlib

/-!
Shallow embedding of `logging_middleware.go` from Appsdeck/go-handlers.

The middleware wraps an inner handler; per request it builds metadata fields,
selects a log level from an ordered list of pattern rules (last match wins),
emits a "starting request" entry, invokes the inner handler through a response
recorder, and emits a "request completed" entry before returning the inner
handler's error unchanged.
-/

namespace Handlers

/-- Log severity levels (logrus): Debug, Info, Warn, Error, Fatal, Panic. -/
inductive Level where
  | debug
  | info
  | warn
  | error
  | fatal
  | panic
deriving DecidableEq, Repr

/-- Characters that are regexp metacharacters outside the modelled fragment. -/
def isRegexpMeta (c : Char) : Bool :=
  c = '(' || c = ')' || c = '[' || c = ']' || c = '{' || c = '}' ||
  c = '*' || c = '+' || c = '?' || c = '|' || c = '\\' || c = '$' ||
  c = '.' || c = '^'

/-- Modelled from the spec: the path-matching expression engine (Go `regexp`,
external to this repository). The spec's patterns are of the form `^literal`
or plain literals; the model supports exactly that fragment: an optional
leading `^` anchor followed by literal characters (stored as a character
list so evaluation is structural). -/
inductive Regexp where
  | anchored (lit : List Char)
  | unanchored (lit : List Char)
deriving DecidableEq, Repr

/-- Modelled from the spec: `regexp.Compile`. Succeeds on the supported
fragment (optional leading `^` anchor, then literal characters), fails on any
pattern containing an unsupported metacharacter. -/
def regexpCompile (p : String) : Option Regexp :=
  match p.data with
  | '^' :: rest =>
      if rest.all (fun c => !(isRegexpMeta c)) then some (.anchored rest)
      else none
  | cs =>
      if cs.all (fun c => !(isRegexpMeta c)) then some (.unanchored cs)
      else none

/-- Modelled from the spec: `Regexp.MatchString`. An anchored pattern matches
iff its literal is a prefix of the subject; an unanchored pattern matches iff
its literal occurs as a substring. -/
def Regexp.matchString : Regexp → String → Bool
  | .anchored lit, s => lit.isPrefixOf s.data
  | .unanchored lit, s => s.data.tails.any (fun t => lit.isPrefixOf t)

/-- `patternInfo`: a compiled pattern together with its log level. -/
structure patternInfo where
  re : Regexp
  level : Level
deriving DecidableEq, Repr

/-- Values stored in logrus fields: strings, integers (status, bytes) and
rationals (fractional-second durations). -/
inductive FValue where
  | str (s : String)
  | int (n : Int)
  | rat (q : ℚ)
deriving DecidableEq, Repr

/-- A logrus `FieldLogger`: a handle carrying a set of attached fields. -/
structure Logger where
  fields : List (String × FValue)
deriving DecidableEq, Repr

/-- `WithField`: derive a logger with one more field attached. logrus fields
form a map, modelled as an association list where the newest binding of a key
shadows older ones; the effective field set is given by `List.lookup`. -/
def Logger.withField (l : Logger) (k : String) (v : FValue) : Logger :=
  ⟨(k, v) :: l.fields⟩

/-- `WithFields`: derive a logger with a batch of fields attached. -/
def Logger.withFields (l : Logger) (fs : List (String × FValue)) : Logger :=
  fs.foldl (fun lg kv => lg.withField kv.1 kv.2) l

/-- Values stored in a request context: Go `context.WithValue` holds
`interface{}`; the middleware stores a string (request id) and a logger. -/
inductive CtxValue where
  | str (s : String)
  | loggerV (l : Logger)
deriving DecidableEq, Repr

/-- An HTTP request, restricted to what the middleware reads. `urlStr` is
`r.URL.String()` (path with query), `urlPath` is `r.URL.Path`. The context is
an association list; lookup finds the most recently added binding first, as
`context.Value` walks the chain from the newest node. -/
structure Request where
  method : String
  urlStr : String
  urlPath : String
  host : String
  remoteAddr : String
  proto : String
  referer : String
  userAgent : String
  ctx : List (String × CtxValue)

/-- What the negroni response recorder observes of the inner handler, plus
the error the handler returns: `status` is the explicitly set status code
(`0` when the handler never set one), `size` the bytes written. -/
structure HandlerResult (ε : Type) where
  status : Nat
  size : Nat
  err : Option ε

/-- A `HandlerFunc`: takes the request and path variables, returns its
outcome (the response writer is abstracted into the observed outcome). -/
def HandlerFunc (ε : Type) := Request → List (String × String) → HandlerResult ε

/-- `LoggingMiddleware`: the base logger and the ordered filter rules. -/
structure LoggingMiddleware where
  logger : Logger
  filters : List patternInfo

/-- `NewLoggingMiddleware`: no filter rules. -/
def NewLoggingMiddleware (logger : Logger) : LoggingMiddleware :=
  { logger := logger, filters := [] }

/-- The construction loop of `NewLoggingMiddlewareWithFilters`: compile each
pattern in iteration order, appending in that order; return the error of the
first invalid pattern. -/
def buildFilters : List (String × Level) → Except String (List patternInfo)
  | [] => .ok []
  | (pattern, level) :: rest =>
      match regexpCompile pattern with
      | none => .error ("invalid regexp '" ++ pattern ++ "'")
      | some re =>
          match buildFilters rest with
          | .error e => .error e
          | .ok tail => .ok ({ re := re, level := level } :: tail)

/-- `NewLoggingMiddlewareWithFilters`: compiles all rules eagerly; fails if
any pattern is invalid. The Go input is a `map[string]logrus.Level`; it is
modelled as the sequence of entries in iteration order. -/
def NewLoggingMiddlewareWithFilters (logger : Logger)
    (filters : List (String × Level)) : Except String LoggingMiddleware :=
  match buildFilters filters with
  | .error e => .error e
  | .ok refilters => .ok { logger := logger, filters := refilters }

/-- The seven metadata fields extracted from a request (lines 66-74). -/
def allFields (r : Request) : List (String × FValue) :=
  [("method", .str r.method),
   ("path", .str r.urlStr),
   ("host", .str r.host),
   ("from", .str r.remoteAddr),
   ("protocol", .str r.proto),
   ("referer", .str r.referer),
   ("user_agent", .str r.userAgent)]

/-- The deletion loop of lines 75-79: drop every entry whose value is a
string of length zero. -/
def deleteEmpties (fs : List (String × FValue)) : List (String × FValue) :=
  fs.filter (fun kv =>
    match kv.2 with
    | .str s => !(s.length = 0)
    | _ => true)

/-- `BuildFields`: the metadata field set of a request, empties removed. -/
def buildFields (r : Request) : List (String × FValue) :=
  deleteEmpties (allFields r)

/-- The level-selection loop of lines 82-87: scan every rule in order,
recording the level of each rule that matches the path; default Info. -/
def selectLevel (filters : List patternInfo) (path : String) : Level :=
  filters.foldl
    (fun lv info => if info.re.matchString path then info.level else lv)
    .info

/-- A log emission event or the call into the inner handler. `callNext`
carries the request passed to the inner handler (with the derived logger in
its context). -/
inductive Event where
  | msg (level : Level) (fields : List (String × FValue)) (text : String)
  | callNext (r : Request)

/-- The `loggerFuncMap` dispatch table: maps each level to emission at that
level. -/
def loggerFuncMap (lv : Level) : Logger → String → Event :=
  match lv with
  | .debug => fun lg s => .msg .debug lg.fields s
  | .info => fun lg s => .msg .info lg.fields s
  | .warn => fun lg s => .msg .warn lg.fields s
  | .error => fun lg s => .msg .error lg.fields s
  | .fatal => fun lg s => .msg .fatal lg.fields s
  | .panic => fun lg s => .msg .panic lg.fields s

/-- The observable outcome of one invocation of the handler returned by
`Apply`: the emitted events in order, the request passed to the inner
handler, the recorder's observation of the inner handler, and the returned
error value. -/
structure ApplyResult (ε : Type) where
  events : List Event
  passedReq : Request
  recorded : HandlerResult ε
  ret : Option ε

/-- Lines 56-62: the request-scoped logger — the base logger, with the
`request_id` field attached when the incoming context holds a string-typed
`"request_id"` value (the Go type assertion `.(string)` fails on any other
value). -/
def requestLogger (l : LoggingMiddleware) (r0 : Request) : Logger :=
  match r0.ctx.lookup "request_id" with
  | some (.str id) => l.logger.withField "request_id" (.str id)
  | _ => l.logger

/-- Line 64: the request passed to the inner handler — the incoming request
with the derived logger stored into its context under the key `"logger"`. -/
def contextRequest (l : LoggingMiddleware) (r0 : Request) : Request :=
  { r0 with ctx := ("logger", .loggerV (requestLogger l r0)) :: r0.ctx }

/-- Lines 66-80: the logger used for emission — the request-scoped logger
with the metadata field set attached. -/
def emissionLogger (l : LoggingMiddleware) (r0 : Request) : Logger :=
  (requestLogger l r0).withFields (buildFields (contextRequest l r0))

/-- `Apply` (lines 54-107): the handler returned by the middleware, as a
function of the request, the path variables, and the two wall-clock readings
`before` and `after` (inputs, since time is external). It follows the source
line by line: capture a string-typed `request_id` from the context, store the
derived logger in the context under `"logger"`, build the metadata fields,
select the level, emit "starting request", call the inner handler through the
recorder, default an unset status to 200, emit "request completed" with
status, duration and bytes, and return the inner handler's error. -/
def LoggingMiddleware.Apply {ε : Type} (l : LoggingMiddleware)
    (next : HandlerFunc ε) (r0 : Request) (vars : List (String × String))
    (before after : ℚ) : ApplyResult ε :=
  let r := contextRequest l r0
  let logger := emissionLogger l r0
  let loglevel := selectLevel l.filters r.urlPath
  let startEvent := loggerFuncMap loglevel logger "starting request"
  let result := next r vars
  let status : Nat := if result.status = 0 then 200 else result.status
  let logger2 := logger.withFields
    [("status", .int status),
     ("duration", .rat (after - before)),
     ("bytes", .int result.size)]
  let endEvent := loggerFuncMap loglevel logger2 "request completed"
  { events := [startEvent, .callNext r, endEvent],
    passedReq := r,
    recorded := result,
    ret := result.err }

/-- Spec-side phrasing of level selection: the level of the last rule in
list position whose pattern matches the path, Info when no rule matches.
Written from the spec's words, to be compared with `selectLevel`. -/
def levelOfLastMatch (filters : List patternInfo) (path : String) : Level :=
  (((filters.filter (fun i => i.re.matchString path)).getLast?).map
    patternInfo.level).getD .info

/-- Compile one map entry into its rule; total via a default, meaningful
under the assumption that the entry's pattern is valid. -/
def compileEntry (pl : String × Level) : patternInfo :=
  { re := (regexpCompile pl.1).getD (.unanchored []), level := pl.2 }

/-- A sample request used to instantiate proved theorems: no Referer header,
a string-typed request id in the context. -/
def sampleRequest : Request :=
  { method := "GET", urlStr := "/abc", urlPath := "/abc",
    host := "example.com", remoteAddr := "10.0.0.1", proto := "HTTP/1.1",
    referer := "", userAgent := "curl/8.0",
    ctx := [("request_id", .str "rid-1")] }

/-- A sample inner handler: sets no status, writes nothing, returns an
error. -/
def sampleNext : HandlerFunc String :=
  fun _ _ => { status := 0, size := 0, err := some "boom" }

theorem loggerFuncMap_eq (lv : Level) (lg : Logger) (s : String) :
    loggerFuncMap lv lg s = .msg lv lg.fields s := by
  cases lv <;> rfl

theorem selectLevel_eq_levelOfLastMatch (fs : List patternInfo)
    (path : String) : selectLevel fs path = levelOfLastMatch fs path := by
  induction fs using List.reverseRecOn with
  | nil => rfl
  | append_singleton l i ih =>
      by_cases h : i.re.matchString path
      · simp [selectLevel, levelOfLastMatch, List.filter_append, h]
      · simp [selectLevel, levelOfLastMatch, List.filter_append, h] at ih ⊢
        exact ih

theorem buildFilters_ok_of_valid (filters : List (String × Level))
    (h : ∀ pl ∈ filters, (regexpCompile pl.1).isSome) :
    buildFilters filters = .ok (filters.map compileEntry) := by
  induction filters with
  | nil => rfl
  | cons pl rest ih =>
      obtain ⟨p, lv⟩ := pl
      obtain ⟨re, hre⟩ :=
        Option.isSome_iff_exists.mp (h (p, lv) (List.mem_cons_self _ _))
      have hrest := ih (fun q hq => h q (List.mem_cons_of_mem _ hq))
      simp [buildFilters, hre, hrest, compileEntry]

theorem buildFilters_ok_iff (filters : List (String × Level)) :
    (∃ l, buildFilters filters = .ok l) ↔
      ∀ pl ∈ filters, (regexpCompile pl.1).isSome := by
  induction filters with
  | nil => simp [buildFilters]
  | cons pl rest ih =>
      obtain ⟨p, lv⟩ := pl
      cases hre : regexpCompile p with
      | none => simp [buildFilters, hre]
      | some re =>
          cases hrest : buildFilters rest with
          | error e =>
              simp only [buildFilters, hre, hrest]
              constructor
              · rintro ⟨l, hl⟩; cases hl
              · intro hall
                obtain ⟨l, hl⟩ := ih.mpr
                  (fun q hq => hall q (List.mem_cons_of_mem _ hq))
                rw [hrest] at hl; cases hl
          | ok tail =>
              simp only [buildFilters, hre, hrest]
              constructor
              · intro _ q hq
                rcases List.mem_cons.mp hq with hq | hq
                · subst hq; simp [hre]
                · have := ih.mp ⟨tail, hrest⟩
                  exact this q hq
              · intro _; exact ⟨_, rfl⟩

theorem new_ok_iff (lg : Logger) (filters : List (String × Level)) :
    (∃ m, NewLoggingMiddlewareWithFilters lg filters = .ok m) ↔
      (∃ l, buildFilters filters = .ok l) := by
  unfold NewLoggingMiddlewareWithFilters
  cases h : buildFilters filters <;> simp

/-- C1: For every rule list and every request path, level selection examines
every rule in list order and returns the level of the last rule in list
position whose pattern matches the path (last-match-wins), irrespective of
pattern specificity; in particular, for rules compiled from
`[("^/a", Debug), ("^/ab", Error)]` in this order and path `/abc`, the
selected level is Error. -/
theorem C1_last_match_wins :
    (∀ (fs : List patternInfo) (path : String),
        selectLevel fs path = levelOfLastMatch fs path) ∧
    (∃ fs, buildFilters [("^/a", .debug), ("^/ab", .error)] = .ok fs ∧
        selectLevel fs "/abc" = .error) :=
  ⟨selectLevel_eq_levelOfLastMatch,
   ⟨[⟨.anchored ['/', 'a'], .debug⟩, ⟨.anchored ['/', 'a', 'b'], .error⟩],
    by rfl, by decide⟩⟩

/-- C2: For every pattern-to-level mapping (modelled as its entry sequence in
iteration order) whose patterns are all valid, `NewLoggingMiddlewareWithFilters`
builds the rule list as exactly the entry-by-entry compilation of the input
in the given order: no reordering, no deduplication. -/
theorem C2_order_preserved (lg : Logger) (filters : List (String × Level))
    (h : ∀ pl ∈ filters, (regexpCompile pl.1).isSome) :
    NewLoggingMiddlewareWithFilters lg filters =
      .ok { logger := lg, filters := filters.map compileEntry } := by
  unfold NewLoggingMiddlewareWithFilters
  rw [buildFilters_ok_of_valid filters h]

theorem C2_order_preserved_witness :
    NewLoggingMiddlewareWithFilters ⟨[]⟩ [("^/a", .debug), ("^/ab", .error)] =
      .ok { logger := ⟨[]⟩,
            filters := [(("^/a" : String), Level.debug),
                        (("^/ab" : String), Level.error)].map compileEntry } :=
  C2_order_preserved ⟨[]⟩ _ (by decide)

/-- C3: Construction succeeds iff every pattern is valid; with any invalid
pattern it fails with an error (so no partial rule set escapes); and whether
construction succeeds does not depend on the iteration order over the input
mapping. -/
theorem C3_construction_validity (lg : Logger)
    (filters : List (String × Level)) :
    ((∃ m, NewLoggingMiddlewareWithFilters lg filters = .ok m) ↔
        ∀ pl ∈ filters, (regexpCompile pl.1).isSome) ∧
    ((¬ ∀ pl ∈ filters, (regexpCompile pl.1).isSome) →
        ∃ e, NewLoggingMiddlewareWithFilters lg filters = .error e) ∧
    (∀ filters' : List (String × Level), filters.Perm filters' →
        ((∃ m, NewLoggingMiddlewareWithFilters lg filters = .ok m) ↔
         (∃ m, NewLoggingMiddlewareWithFilters lg filters' = .ok m))) := by
  have h1 := (new_ok_iff lg filters).trans (buildFilters_ok_iff filters)
  refine ⟨h1, ?_, ?_⟩
  · intro hnot
    cases hm : NewLoggingMiddlewareWithFilters lg filters with
    | error e => exact ⟨e, rfl⟩
    | ok m => exact absurd (h1.mp ⟨m, hm⟩) hnot
  · intro fs' hperm
    rw [h1, (new_ok_iff lg fs').trans (buildFilters_ok_iff fs')]
    constructor <;> intro hall pl hpl
    · exact hall pl (hperm.mem_iff.mpr hpl)
    · exact hall pl (hperm.mem_iff.mp hpl)

theorem C3_construction_validity_witness :
    (∃ e, NewLoggingMiddlewareWithFilters ⟨[]⟩ [("(", Level.debug)] =
        .error e) ∧
    ((∃ m, NewLoggingMiddlewareWithFilters ⟨[]⟩
          [("^/a", Level.debug), ("^/ab", Level.error)] = .ok m) ↔
     (∃ m, NewLoggingMiddlewareWithFilters ⟨[]⟩
          [("^/ab", Level.error), ("^/a", Level.debug)] = .ok m)) :=
  ⟨(C3_construction_validity ⟨[]⟩ _).2.1 (by decide),
   (C3_construction_validity ⟨[]⟩ _).2.2 _ (by decide)⟩

/-- C6: The metadata field set built from a request never contains an entry
whose value is the empty string; if the request has no Referer header the
set has no `referer` key; and every retained entry is exactly one of the
extracted entries, with no other normalization applied. -/
theorem C6_no_empty_fields :
    (∀ (r : Request) (kv : String × FValue),
        kv ∈ buildFields r → ¬ kv.2 = FValue.str "") ∧
    (∀ r : Request, r.referer = "" →
        ∀ kv : String × FValue, kv ∈ buildFields r → ¬ kv.1 = "referer") ∧
    (∀ (r : Request) (kv : String × FValue),
        kv ∈ buildFields r → kv ∈ allFields r) := by
  refine ⟨?_, ?_, ?_⟩
  · intro r kv h heq
    have hp := (List.mem_filter.mp h).2
    rw [heq] at hp
    simp at hp
  · intro r href kv h hk
    have hmem := (List.mem_filter.mp h).1
    have hp := (List.mem_filter.mp h).2
    simp [allFields] at hmem
    rcases hmem with h1 | h1 | h1 | h1 | h1 | h1 | h1 <;> subst h1 <;>
      simp_all [href]
  · intro r kv h
    exact (List.mem_filter.mp h).1

theorem C6_no_empty_fields_witness :
    (¬ (("method", FValue.str "GET") : String × FValue).2 = FValue.str "") ∧
    (¬ (("method", FValue.str "GET") : String × FValue).1 = "referer") ∧
    (("method", FValue.str "GET") : String × FValue) ∈ allFields sampleRequest :=
  ⟨C6_no_empty_fields.1 sampleRequest _ (by decide),
   C6_no_empty_fields.2.1 sampleRequest rfl _ (by decide),
   C6_no_empty_fields.2.2 sampleRequest _ (by decide)⟩

/-- C7: For every request path matched by no rule of the configured rule
set, level selection returns Info. -/
theorem C7_default_info (fs : List patternInfo) (path : String)
    (h : ∀ i ∈ fs, i.re.matchString path = false) :
    selectLevel fs path = .info := by
  rw [selectLevel_eq_levelOfLastMatch]
  unfold levelOfLastMatch
  have hnil : fs.filter (fun i => i.re.matchString path) = [] :=
    List.filter_eq_nil_iff.mpr (by simpa using h)
  simp [hnil]

theorem C7_default_info_witness :
    selectLevel [⟨.anchored ['/', 'a'], .debug⟩] "/xyz" = .info :=
  C7_default_info _ _ (by decide)

/-- C4: For every inner handler and every invocation of the returned
handler, the inner handler's error value is returned verbatim, and the
"request completed" entry is emitted (it is the last event of the
invocation's trace) before that error is returned. -/
theorem C4_error_verbatim {ε : Type} (m : LoggingMiddleware)
    (next : HandlerFunc ε) (r : Request) (vars : List (String × String))
    (t0 t1 : ℚ) :
    (m.Apply next r vars t0 t1).ret =
      (next (m.Apply next r vars t0 t1).passedReq vars).err ∧
    ∃ lv f, (m.Apply next r vars t0 t1).events.getLast? =
      some (.msg lv f "request completed") := by
  refine ⟨rfl, selectLevel m.filters (contextRequest m r).urlPath,
    ((emissionLogger m r).withFields
      [("status", .int (↑(if (next (contextRequest m r) vars).status = 0
          then 200 else (next (contextRequest m r) vars).status) : Int)),
       ("duration", .rat (t1 - t0)),
       ("bytes", .int ((next (contextRequest m r) vars).size : Int))]).fields,
    ?_⟩
  simp [LoggingMiddleware.Apply, loggerFuncMap_eq]

/-- C5: The `status` field of the "request completed" entry is 200 when the
recorder observed the sentinel 0 (handler never set a status), and otherwise
the status the handler set. -/
theorem C5_status_default {ε : Type} (m : LoggingMiddleware)
    (next : HandlerFunc ε) (r : Request) (vars : List (String × String))
    (t0 t1 : ℚ) :
    ∃ lv f, (m.Apply next r vars t0 t1).events.getLast? =
        some (.msg lv f "request completed") ∧
      f.lookup "status" = some (.int
        (↑(if (m.Apply next r vars t0 t1).recorded.status = 0 then 200
          else (m.Apply next r vars t0 t1).recorded.status) : Int)) := by
  refine ⟨selectLevel m.filters (contextRequest m r).urlPath,
    ((emissionLogger m r).withFields
      [("status", .int (↑(if (next (contextRequest m r) vars).status = 0
          then 200 else (next (contextRequest m r) vars).status) : Int)),
       ("duration", .rat (t1 - t0)),
       ("bytes", .int ((next (contextRequest m r) vars).size : Int))]).fields,
    ?_, ?_⟩
  · simp [LoggingMiddleware.Apply, loggerFuncMap_eq]
  · simp [LoggingMiddleware.Apply, Logger.withFields, Logger.withField,
      List.lookup]

/-- C8: A middleware built by `NewLoggingMiddleware` (no filter rules) emits
both the start and the completion entry at level Info, for every request
regardless of path. -/
theorem C8_no_filters_always_info {ε : Type} (lg : Logger)
    (next : HandlerFunc ε) (r : Request) (vars : List (String × String))
    (t0 t1 : ℚ) :
    ∃ f1 f2 r', ((NewLoggingMiddleware lg).Apply next r vars t0 t1).events =
      [.msg .info f1 "starting request", .callNext r',
       .msg .info f2 "request completed"] := by
  refine ⟨(emissionLogger (NewLoggingMiddleware lg) r).fields,
    ((emissionLogger (NewLoggingMiddleware lg) r).withFields
      [("status", .int
          (↑(if (next (contextRequest (NewLoggingMiddleware lg) r) vars).status = 0
            then 200
            else (next (contextRequest (NewLoggingMiddleware lg) r) vars).status)
            : Int)),
       ("duration", .rat (t1 - t0)),
       ("bytes", .int
          ((next (contextRequest (NewLoggingMiddleware lg) r) vars).size : Int))]).fields,
    contextRequest (NewLoggingMiddleware lg) r, ?_⟩
  simp [LoggingMiddleware.Apply, loggerFuncMap_eq, NewLoggingMiddleware,
    selectLevel]

/-- C9: Every invocation's event trace is exactly a "starting request"
emission, then the call into the inner handler, then a "request completed"
emission: the start entry strictly precedes the inner handler's execution
and the completion entry strictly follows its return. -/
theorem C9_start_before_completed {ε : Type} (m : LoggingMiddleware)
    (next : HandlerFunc ε) (r : Request) (vars : List (String × String))
    (t0 t1 : ℚ) :
    ∃ lv f1 f2 r', (m.Apply next r vars t0 t1).events =
      [.msg lv f1 "starting request", .callNext r',
       .msg lv f2 "request completed"] := by
  refine ⟨selectLevel m.filters (contextRequest m r).urlPath,
    (emissionLogger m r).fields,
    ((emissionLogger m r).withFields
      [("status", .int (↑(if (next (contextRequest m r) vars).status = 0
          then 200 else (next (contextRequest m r) vars).status) : Int)),
       ("duration", .rat (t1 - t0)),
       ("bytes", .int ((next (contextRequest m r) vars).size : Int))]).fields,
    contextRequest m r, ?_⟩
  simp [LoggingMiddleware.Apply, loggerFuncMap_eq]

/-- C10: The logger stored in the request context under `"logger"` carries
the `request_id` field exactly when the incoming context holds a
string-typed `"request_id"` value, and carries no request-metadata field
(its keys are the base logger's keys plus at most `request_id`), because it
is captured before the metadata fields are attached. -/
theorem C10_context_logger_no_metadata {ε : Type} (m : LoggingMiddleware)
    (next : HandlerFunc ε) (r : Request) (vars : List (String × String))
    (t0 t1 : ℚ) :
    (∀ id, r.ctx.lookup "request_id" = some (.str id) →
        (m.Apply next r vars t0 t1).passedReq.ctx.lookup "logger" =
          some (.loggerV (m.logger.withField "request_id" (.str id)))) ∧
    ((∀ id, ¬ r.ctx.lookup "request_id" = some (.str id)) →
        (m.Apply next r vars t0 t1).passedReq.ctx.lookup "logger" =
          some (.loggerV m.logger)) ∧
    (∀ lg : Logger,
        (m.Apply next r vars t0 t1).passedReq.ctx.lookup "logger" =
          some (.loggerV lg) →
        ∀ k, k ∈ lg.fields.map Prod.fst →
          k ∈ m.logger.fields.map Prod.fst ∨ k = "request_id") := by
  refine ⟨?_, ?_, ?_⟩
  · intro id hid
    simp [LoggingMiddleware.Apply, contextRequest, List.lookup,
      requestLogger, hid]
  · intro hnone
    cases hq : r.ctx.lookup "request_id" with
    | none =>
        simp [LoggingMiddleware.Apply, contextRequest, List.lookup,
          requestLogger, hq]
    | some v =>
        cases v with
        | str id => exact absurd hq (hnone id)
        | loggerV lgv =>
            simp [LoggingMiddleware.Apply, contextRequest, List.lookup,
              requestLogger, hq]
  · intro lg hlg k hk
    have hlg' : requestLogger m r = lg := by
      simp [LoggingMiddleware.Apply, contextRequest, List.lookup] at hlg
      exact hlg
    subst hlg'
    unfold requestLogger at hk
    cases hq : r.ctx.lookup "request_id" with
    | none =>
        rw [hq] at hk
        exact Or.inl hk
    | some v =>
        cases v with
        | str id =>
            rw [hq] at hk
            simp [Logger.withField] at hk
            rcases hk with hk | hk
            · exact Or.inr hk
            · exact Or.inl (by simpa using hk)
        | loggerV lgv =>
            rw [hq] at hk
            exact Or.inl hk

theorem C10_context_logger_no_metadata_witness :
    (((NewLoggingMiddleware ⟨[]⟩).Apply sampleNext sampleRequest [] 0
          1).passedReq.ctx.lookup "logger" =
      some (.loggerV ((NewLoggingMiddleware ⟨[]⟩).logger.withField
        "request_id" (.str "rid-1")))) ∧
    ("request_id" ∈
        (NewLoggingMiddleware ⟨[]⟩).logger.fields.map Prod.fst ∨
      ("request_id" : String) = "request_id") :=
  ⟨(C10_context_logger_no_metadata (NewLoggingMiddleware ⟨[]⟩) sampleNext
      sampleRequest [] 0 1).1 "rid-1" (by decide),
   (C10_context_logger_no_metadata (NewLoggingMiddleware ⟨[]⟩) sampleNext
      sampleRequest [] 0 1).2.2
     ((NewLoggingMiddleware ⟨[]⟩).logger.withField "request_id"
       (.str "rid-1"))
     (by decide) "request_id" (by decide)⟩

end Handlers
